import Mathlib
/-!
Verification of the grid-occupancy and movement subsystem of the roguelike
prototype (src/roguelike/__init__.py, src/roguelike/map.py,
src/roguelike/entity.py).

The embedding models the navigation grid (`Map.level_grid`'s `"entity"`,
`"walkable"` and `"transparent"` fields), entities with their
`occupied_tile` back-reference and pending `action`, numpy's index
semantics (negative indices wrap, out-of-range indices raise IndexError),
`Map.place_entity`, `Map.can_move_to`, `ActionMove.__call__`,
`GameWindow.update`, `GameWindow.move_view` and the key handlers.
Python exceptions (AssertionError from the `assert` in `place_entity`,
IndexError from numpy indexing) are modelled as `Except.error` values.
Sprite/graphics updates (batches, sprite positions) are out of scope and
are not part of the modelled state.
-/

/-- Uncaught Python exceptions the modelled code can raise: the
`assert not self.level_grid["entity"][row][col]` in `Map.place_entity`
(and `assert entity.occupied_tile` in `ActionMove.__call__`) raise
AssertionError, numpy indexing with an index out of range raises
IndexError. -/
inductive PyError where
  | assertionError
  | indexError
  deriving Repr, DecidableEq

/-- Class `Entity` (entity.py, duplicated in __init__.py): `occupied_tile`
is the empty tuple `()` before placement (modelled as `none`) or a
`(col, row)` pair; `action` holds the pending `ActionMove`, modelled by
its `(dx, dy)` payload (the only action kind the game ever stores on an
entity besides `None`). -/
structure Entity where
  name : String
  occupied_tile : Option (Int × Int)
  action : Option (Int × Int)
  deriving Repr, DecidableEq

/-- The state owned by class `Map` (__init__.py / map.py): grid dimensions
(`level_grid.shape = (rows, cols)`), the `"entity"` field of each cell
(`none` models the integer 0 that marks an empty cell), the `"walkable"`
and `"transparent"` flags of each cell, and the list of all `Entity`
objects; entities are referred to by their index in that list. -/
structure GameState where
  cols : Nat
  rows : Nat
  cells : Nat → Nat → Option Nat
  walkable : Nat → Nat → Bool
  transparent : Nat → Nat → Bool
  entities : List Entity

/-- Pointwise update of one grid cell, modelling
`level_grid["entity"][r][c] = v`. -/
def setCell (cells : Nat → Nat → Option Nat) (r c : Nat) (v : Option Nat) :
    Nat → Nat → Option Nat :=
  fun r' c' => if r' = r ∧ c' = c then v else cells r' c'

/-- Resolution of one numpy index along an axis of length `n`: an index in
`[0, n)` is used as is, an index in `[-n, 0)` wraps around to `i + n`, and
anything else raises IndexError (`none`). -/
def npIndex (n : Nat) (i : Int) : Option Nat :=
  if 0 ≤ i then
    if i < (n : Int) then some i.toNat else none
  else
    if -(n : Int) ≤ i then some (i + (n : Int)).toNat else none

/-- `Map.can_move_to` (map.py lines 147-157): reject a target outside
`[0, cols) × [0, rows)`, then reject a target cell whose `"entity"` field
is truthy (occupied); the `entity` argument is taken but never used, and
the `"walkable"` / `"transparent"` fields are never consulted. -/
def Map.can_move_to (g : GameState) (_entity : Nat) (col row : Int) : Bool :=
  if (g.cols : Int) ≤ col ∨ (g.rows : Int) ≤ row ∨ col < 0 ∨ row < 0 then
    false
  else if (g.cells row.toNat col.toNat).isSome then
    false
  else
    true

/-- `Map.place_entity` (map.py lines 133-144): after a sprite update (out
of modelled scope) it asserts that the target cell's `"entity"` field is
falsy, writes the entity into the cell, and sets
`entity.occupied_tile = (col, row)`. There is no bounds check: the numpy
indexing itself raises IndexError for indices out of `[-dim, dim)`, and
silently wraps negative indices in `[-dim, 0)`. The exception is raised
before either side of the occupancy link is written. -/
def Map.place_entity (g : GameState) (eid : Nat) (col row : Int) :
    Except PyError GameState :=
  match g.entities[eid]? with
  | none => .error .indexError
  | some e =>
    match npIndex g.rows row, npIndex g.cols col with
    | some r, some c =>
      if (g.cells r c).isSome then
        .error .assertionError
      else
        .ok { g with
          cells := setCell g.cells r c (some eid),
          entities := g.entities.set eid { e with occupied_tile := some (col, row) } }
    | _, _ => .error .indexError

/-- The eight members of `class Directions(enum.Enum)` (__init__.py lines
47-57), in source order. -/
inductive Directions where
  | LEFT
  | LEFT_UP
  | UP
  | RIGHT_UP
  | RIGHT
  | RIGHT_DOWN
  | DOWN
  | LEFT_DOWN
  deriving Repr, DecidableEq

/-- The `(dx, dy)` value of each `Directions` member. -/
def Directions.value : Directions → Int × Int
  | .LEFT => (-1, 0)
  | .LEFT_UP => (-1, 1)
  | .UP => (0, 1)
  | .RIGHT_UP => (1, 1)
  | .RIGHT => (1, 0)
  | .RIGHT_DOWN => (1, -1)
  | .DOWN => (0, -1)
  | .LEFT_DOWN => (-1, -1)

/-- The direction table as a list, one entry per enum member, in source
order. -/
def Directions.all : List Directions :=
  [.LEFT, .LEFT_UP, .UP, .RIGHT_UP, .RIGHT, .RIGHT_DOWN, .DOWN, .LEFT_DOWN]

/-- `KEY_TO_DIR` (__init__.py lines 59-72), with pyglet's key constants
(`key.LEFT = 65361`, ..., `key.NUM_1 = 65457`, ...). -/
def KEY_TO_DIR (symbol : Nat) : Option Directions :=
  if symbol = 65361 then some .LEFT
  else if symbol = 65460 then some .LEFT
  else if symbol = 65461 then some .LEFT_UP
  else if symbol = 65362 then some .UP
  else if symbol = 65464 then some .UP
  else if symbol = 65465 then some .RIGHT_UP
  else if symbol = 65363 then some .RIGHT
  else if symbol = 65462 then some .RIGHT
  else if symbol = 65459 then some .RIGHT_DOWN
  else if symbol = 65364 then some .DOWN
  else if symbol = 65458 then some .DOWN
  else if symbol = 65457 then some .LEFT_DOWN
  else none

/-- `IMG_FONT_SCALE` (__init__.py line 30). -/
def IMG_FONT_SCALE : Nat := 2

/-- `IMG_FONT_WIDTH` (__init__.py line 32). -/
def IMG_FONT_WIDTH : Nat := 10

/-- `IMG_FONT_HEIGHT` (__init__.py line 33). -/
def IMG_FONT_HEIGHT : Nat := 10

/-- `Map.tile_width = IMG_FONT_WIDTH * IMG_FONT_SCALE` (__init__.py line
222). -/
def Map.tile_width : Nat := IMG_FONT_WIDTH * IMG_FONT_SCALE

/-- `Map.tile_height = IMG_FONT_HEIGHT * IMG_FONT_SCALE` (__init__.py line
223). -/
def Map.tile_height : Nat := IMG_FONT_HEIGHT * IMG_FONT_SCALE

/-- The state owned by class `GameWindow`: the `Map` (`self.grid`), the
index of `self.player`, the indices of `self.entities` (the npc list),
the window pixel dimensions, `self.view_target`, and
`self.player.movement_repeat_key`. -/
structure WindowState where
  game : GameState
  player : Nat
  npcs : List Nat
  width : Nat
  height : Nat
  view_target : Int × Int
  movement_repeat_key : Option Nat

/-- `GameWindow.move_view` (__init__.py lines 413-421): recompute
`view_target` from the target tile, the window pixel size and the tile
pixel size; this touches no grid, tile or entity state. -/
def GameWindow.move_view (w : WindowState) (target : Int × Int) : WindowState :=
  let abs_x := target.1 * (Map.tile_width : Int)
  let abs_y := target.2 * (Map.tile_height : Int)
  let target_x := abs_x - ((w.width / 2 : Nat) : Int) + ((Map.tile_width / 2 : Nat) : Int)
  let target_y := abs_y - ((w.height / 2 : Nat) : Int) + ((Map.tile_height / 2 : Nat) : Int)
  { w with view_target := (target_x, target_y) }

/-- `ActionMove.__call__` (entity.py lines 21-38, duplicated in
__init__.py lines 89-107): assert the entity is placed, compute the
target, and if `can_move_to` approves, clear the source cell
(`level_grid["entity"][entity.occupied_tile[::-1]] = 0`, with numpy index
semantics), call `place_entity` on the target, recenter the view on the
entity's new tile and return `True`; otherwise return `False` leaving
every modelled field untouched. -/
def ActionMove.call (w : WindowState) (eid : Nat) (dx dy : Int) :
    Except PyError (WindowState × Bool) :=
  match w.game.entities[eid]? with
  | none => .error .indexError
  | some e =>
    match e.occupied_tile with
    | none => .error .assertionError
    | some (col, row) =>
      let target_col := col + dx
      let target_row := row + dy
      if Map.can_move_to w.game eid target_col target_row then
        match npIndex w.game.rows row, npIndex w.game.cols col with
        | some r, some c =>
          let g1 := { w.game with cells := setCell w.game.cells r c none }
          match Map.place_entity g1 eid target_col target_row with
          | .error err => .error err
          | .ok g2 =>
            .ok (GameWindow.move_view { w with game := g2 } (target_col, target_row), true)
        | _, _ => .error .indexError
      else
        .ok (w, false)

/-- The `for entity in self.entities` loop at the end of
`GameWindow.update` (__init__.py lines 398-400): resolve the pending
action of each npc in list order, ignoring each action's return value. -/
def runNpcActions (w : WindowState) : List Nat → Except PyError WindowState
  | [] => .ok w
  | eid :: rest =>
    match w.game.entities[eid]? with
    | none => .error .indexError
    | some e =>
      match e.action with
      | none => runNpcActions w rest
      | some (dx, dy) =>
        match ActionMove.call w eid dx dy with
        | .error err => .error err
        | .ok (w', _) => runNpcActions w' rest

/-- `GameWindow.update` (__init__.py lines 390-400): return immediately
when the player has no pending action; otherwise resolve the player's
action, return when it failed, and only when it succeeded run every npc's
pending action. No branch of this function clears any `action` field. -/
def GameWindow.update (w : WindowState) : Except PyError WindowState :=
  match w.game.entities[w.player]? with
  | none => .error .indexError
  | some p =>
    match p.action with
    | none => .ok w
    | some (dx, dy) =>
      match ActionMove.call w w.player dx dy with
      | .error err => .error err
      | .ok (w1, ok) =>
        if ok then runNpcActions w1 w1.npcs else .ok w1

/-- `GameWindow.on_key_press` (__init__.py lines 431-436): a directional
key stores a fresh `ActionMove` on the player and records the key as
`movement_repeat_key`. -/
def GameWindow.on_key_press (w : WindowState) (symbol : Nat) : WindowState :=
  match KEY_TO_DIR symbol with
  | none => w
  | some d =>
    match w.game.entities[w.player]? with
    | none => w
    | some p =>
      { w with
        game := { w.game with
          entities := w.game.entities.set w.player { p with action := some d.value } },
        movement_repeat_key := some symbol }

/-- `GameWindow.on_key_release` (__init__.py lines 439-443): clear the
player's pending `ActionMove` only when the released key matches
`movement_repeat_key`. -/
def GameWindow.on_key_release (w : WindowState) (symbol : Nat) : WindowState :=
  match w.game.entities[w.player]? with
  | none => w
  | some p =>
    if p.action.isSome ∧ w.movement_repeat_key = some symbol then
      { w with
        game := { w.game with
          entities := w.game.entities.set w.player { p with action := none } } }
    else
      w

/-- One grid operation: a call of `Map.place_entity` or a resolution of an
`ActionMove` for one entity. -/
inductive Op where
  | place : Nat → Int → Int → Op
  | move : Nat → Int → Int → Op

/-- Run one operation, propagating any raised exception. -/
def applyOp (w : WindowState) : Op → Except PyError WindowState
  | .place eid col row => (Map.place_entity w.game eid col row).map fun g => { w with game := g }
  | .move eid dx dy => (ActionMove.call w eid dx dy).map (·.1)

/-- Run a sequence of operations; `none` when some operation raises. A
move that merely returns `False` is a normal, state-preserving step. -/
def runOps (w : WindowState) : List Op → Option WindowState
  | [] => some w
  | op :: ops =>
    match applyOp w op with
    | .ok w' => runOps w' ops
    | .error _ => none

/-- The grid as `Map.create_grid` builds it: every cell walkable,
transparent and empty, with `n` entities, none of them placed yet. -/
def initG (cols rows n : Nat) : GameState :=
  { cols := cols
    rows := rows
    cells := fun _ _ => none
    walkable := fun _ _ => true
    transparent := fun _ _ => true
    entities := List.replicate n { name := "npc", occupied_tile := none, action := none } }

/-- A fresh window over a fresh grid, before any placement. -/
def initW (cols rows n width height : Nat) : WindowState :=
  { game := initG cols rows n
    player := 0
    npcs := []
    width := width
    height := height
    view_target := (0, 0)
    movement_repeat_key := none }

/-- Placeholder window state used only to destructure computed `Option`
results in concrete evaluations. -/
def wDefault : WindowState := initW 0 0 0 0 0

/-- The dual-pointer occupancy invariant: every placed entity's
`occupied_tile` names an in-bounds cell whose `"entity"` field holds that
entity back, and every occupied cell's occupant points back at exactly
that cell. -/
def DualInv (g : GameState) : Prop :=
  (∀ (eid : Nat) (e : Entity), g.entities[eid]? = some e →
    ∀ col row, e.occupied_tile = some (col, row) →
    0 ≤ col ∧ col < (g.cols : Int) ∧ 0 ≤ row ∧ row < (g.rows : Int) ∧
      g.cells row.toNat col.toNat = some eid) ∧
  (∀ r c, r < g.rows → c < g.cols → ∀ eid, g.cells r c = some eid →
    ∃ e, g.entities[eid]? = some e ∧ e.occupied_tile = some ((c : Int), (r : Int)))

/-- Bounds invariant on entity positions: every placed entity's
`occupied_tile` lies in `[0, cols) × [0, rows)`. -/
def EntitiesInBounds (g : GameState) : Prop :=
  ∀ (eid : Nat) (e : Entity), g.entities[eid]? = some e →
    ∀ col row, e.occupied_tile = some (col, row) →
    0 ≤ col ∧ col < (g.cols : Int) ∧ 0 ≤ row ∧ row < (g.rows : Int)

/-- Well-formedness of an operation sequence, checked along the actual
execution: every `place` targets in-bounds coordinates and an entity that
exists and is not currently placed; moves are unrestricted. -/
def opsWFB (w : WindowState) : List Op → Bool
  | [] => true
  | .place eid col row :: ops =>
    (match (w.game.entities[eid]? : Option Entity) with
     | some e => e.occupied_tile == none
     | none => false)
    && decide (0 ≤ col) && decide (col < (w.game.cols : Int))
    && decide (0 ≤ row) && decide (row < (w.game.rows : Int))
    && (match applyOp w (.place eid col row) with
        | .ok w' => opsWFB w' ops
        | .error _ => true)
  | .move eid dx dy :: ops =>
    match applyOp w (.move eid dx dy) with
    | .ok w' => opsWFB w' ops
    | .error _ => true

/-- Syntactic in-bounds restriction on the `place` operations of a
sequence, relative to fixed grid dimensions. -/
def placesInBoundsB (cols rows : Nat) : List Op → Bool
  | [] => true
  | .place _ col row :: ops =>
    decide (0 ≤ col) && decide (col < (cols : Int))
    && decide (0 ≤ row) && decide (row < (rows : Int))
    && placesInBoundsB cols rows ops
  | .move _ _ _ :: ops => placesInBoundsB cols rows ops

/-- Modelled from the spec: the viewport tile-count derivation
(`visible_tiles = ceil(window_dimension / tile_dimension)`, forced up to the
next odd integer) belongs to the viewport/camera component described in the
spec; no code under src/ computes visible tile counts (`GameWindow.move_view`
only recomputes a pixel offset), so this definition follows the spec text. -/
def visible_tiles (window_dim tile_dim : Nat) : Nat :=
  let v := (window_dim + tile_dim - 1) / tile_dim
  if v % 2 = 0 then v + 1 else v

/-- Modelled from the spec: the clamped viewport window along one axis,
`min = max(0, focus - visible // 2)` and `max = min(cells - 1, focus + visible // 2)`;
this clamping rule is spec text with no counterpart under src/. -/
def viewportRange (cells : Nat) (focus : Int) (visible : Nat) : Int × Int :=
  (max 0 (focus - ((visible / 2 : Nat) : Int)),
   min ((cells : Int) - 1) (focus + ((visible / 2 : Nat) : Int)))

/-- Operation sequence placing entity 0 twice: a second `place_entity` call for an already-placed entity. -/
def c1cexOps : List Op := [.place 0 0 0, .place 0 1 0]

/-- Fresh 3x3 window with one entity, start state of the C1 counterexample run. -/
def c1cexW : WindowState := initW 3 3 1 960 540

/-- State reached by running [[c1cexOps]] from the fresh 3x3 grid. -/
def c1cexRes : WindowState := (runOps c1cexW c1cexOps).getD wDefault

/-- Well-formed operation sequence: two fresh in-bounds placements followed by two moves. -/
def c1wopsW : List Op := [.place 0 1 1, .place 1 0 0, .move 0 1 0, .move 1 0 1]

/-- Scenario state for C2: entity A (id 0) at (3,3), entity B (id 1) at (4,3) on a 10x10 grid. -/
def c2w : WindowState :=
  { game :=
      { cols := 10, rows := 10
        cells := setCell (setCell (fun _ _ => none) 3 3 (some 0)) 3 4 (some 1)
        walkable := fun _ _ => true
        transparent := fun _ _ => true
        entities := [{ name := "npc", occupied_tile := some (3, 3), action := none },
                     { name := "npc", occupied_tile := some (4, 3), action := none }] }
    player := 0
    npcs := [1]
    width := 960
    height := 540
    view_target := (0, 0)
    movement_repeat_key := none }

/-- Scenario state for C3: the player at the grid edge (0,5) with a pending LEFT move. -/
def c3cexW : WindowState :=
  { game :=
      { cols := 6, rows := 6
        cells := setCell (fun _ _ => none) 5 0 (some 0)
        walkable := fun _ _ => true
        transparent := fun _ _ => true
        entities := [{ name := "player", occupied_tile := some (0, 5), action := some (-1, 0) }] }
    player := 0
    npcs := []
    width := 960
    height := 540
    view_target := (0, 0)
    movement_repeat_key := some 65361 }

/-- State after one tick of the C3 scenario. -/
def c3amRes : WindowState := (GameWindow.update c3cexW).toOption.getD wDefault

/-- Scenario state for C4: the player idle at (0,0), an npc at (2,2) with a pending RIGHT move whose target (3,2) is free. -/
def c4cexW : WindowState :=
  { game :=
      { cols := 4, rows := 4
        cells := setCell (setCell (fun _ _ => none) 0 0 (some 0)) 2 2 (some 1)
        walkable := fun _ _ => true
        transparent := fun _ _ => true
        entities := [{ name := "player", occupied_tile := some (0, 0), action := none },
                     { name := "npc", occupied_tile := some (2, 2), action := some (1, 0) }] }
    player := 0
    npcs := [1]
    width := 960
    height := 540
    view_target := (0, 0)
    movement_repeat_key := none }

/-- Scenario grid for C5: a 3x3 grid whose cell (1,1) is occupied by entity 0; entity 1 is unplaced. -/
def c5g : GameState :=
  { cols := 3, rows := 3
    cells := setCell (fun _ _ => none) 1 1 (some 0)
    walkable := fun _ _ => true
    transparent := fun _ _ => true
    entities := [{ name := "npc", occupied_tile := some (1, 1), action := none },
                 { name := "npc", occupied_tile := none, action := none }] }

/-- Fresh 3x3 window with one entity, start state of the C6 counterexample run. -/
def c6cexW : WindowState := initW 3 3 1 960 540

/-- Operation sequence with a single negative-coordinate placement. -/
def c6cexOps : List Op := [.place 0 (-1) 0]

/-- State reached by running [[c6cexOps]] from the fresh 3x3 grid. -/
def c6cexRes : WindowState := (runOps c6cexW c6cexOps).getD wDefault

/-- In-bounds placement followed by two moves, one of which is blocked. -/
def c6wopsW : List Op := [.place 0 2 2, .move 0 (-1) 0, .move 0 0 (-1)]

/-- Scenario state for C7: one entity at (1,1) in the middle of a 3x3 grid. -/
def c7w : WindowState :=
  { game :=
      { cols := 3, rows := 3
        cells := setCell (fun _ _ => none) 1 1 (some 0)
        walkable := fun _ _ => true
        transparent := fun _ _ => true
        entities := [{ name := "npc", occupied_tile := some (1, 1), action := none }] }
    player := 0
    npcs := []
    width := 960
    height := 540
    view_target := (0, 0)
    movement_repeat_key := none }

/-- State after the RIGHT move of the C7 scenario. -/
def c7w1 : WindowState :=
  ((ActionMove.call c7w 0 Directions.RIGHT.value.1 Directions.RIGHT.value.2).toOption.getD
    (wDefault, false)).1

/-- State after the RIGHT move followed by the LEFT move of the C7 scenario. -/
def c7w2 : WindowState :=
  ((ActionMove.call c7w1 0 (-Directions.RIGHT.value.1) (-Directions.RIGHT.value.2)).toOption.getD
    (wDefault, false)).1

/-- Scenario state for C8: a 10x10 grid with the player at (5,5) and every other cell free. -/
def c8w : WindowState :=
  { game :=
      { cols := 10, rows := 10
        cells := setCell (fun _ _ => none) 5 5 (some 0)
        walkable := fun _ _ => true
        transparent := fun _ _ => true
        entities := [{ name := "player", occupied_tile := some (5, 5), action := none }] }
    player := 0
    npcs := []
    width := 960
    height := 540
    view_target := (0, 0)
    movement_repeat_key := none }

/-- Scenario state for C10: every cell of the grid has walkable = False and transparent = False; entity 0 sits at (0,0). -/
def c10w : WindowState :=
  { game :=
      { cols := 3, rows := 3
        cells := setCell (fun _ _ => none) 0 0 (some 0)
        walkable := fun _ _ => false
        transparent := fun _ _ => false
        entities := [{ name := "npc", occupied_tile := some (0, 0), action := none }] }
    player := 0
    npcs := []
    width := 960
    height := 540
    view_target := (0, 0)
    movement_repeat_key := none }

lemma npIndex_of_lt {n : Nat} {i : Int} (h0 : 0 ≤ i) (h1 : i < (n : Int)) :
    npIndex n i = some i.toNat := by
  unfold npIndex
  rw [if_pos h0, if_pos h1]

lemma npIndex_lt {n r : Nat} {i : Int} (h : npIndex n i = some r) : r < n := by
  unfold npIndex at h
  split at h
  · split at h
    · injection h with h'
      omega
    · exact absurd h (by simp)
  · split at h
    · injection h with h'
      omega
    · exact absurd h (by simp)

lemma setCell_self (cells : Nat → Nat → Option Nat) (r c : Nat) (v : Option Nat) :
    setCell cells r c v r c = v := by
  unfold setCell
  rw [if_pos ⟨rfl, rfl⟩]

lemma setCell_ne (cells : Nat → Nat → Option Nat) {r c r' c' : Nat} (v : Option Nat)
    (h : ¬(r' = r ∧ c' = c)) : setCell cells r c v r' c' = cells r' c' := by
  unfold setCell
  rw [if_neg h]

lemma can_move_to_iff (g : GameState) (ent : Nat) (col row : Int) :
    Map.can_move_to g ent col row = true ↔
      0 ≤ col ∧ col < (g.cols : Int) ∧ 0 ≤ row ∧ row < (g.rows : Int) ∧
        g.cells row.toNat col.toNat = none := by
  unfold Map.can_move_to
  split
  next hb =>
    constructor
    · intro h
      exact absurd h (by simp)
    · rintro ⟨h1, h2, h3, h4, -⟩
      omega
  next hb =>
    push_neg at hb
    split
    next hocc =>
      constructor
      · intro h
        exact absurd h (by simp)
      · rintro ⟨-, -, -, -, h5⟩
        rw [h5] at hocc
        exact absurd hocc (by simp)
    next hocc =>
      constructor
      · intro _
        refine ⟨by omega, by omega, by omega, by omega, ?_⟩
        cases hc : g.cells row.toNat col.toNat with
        | none => rfl
        | some v => rw [hc] at hocc; simp at hocc
      · intro _
        rfl

lemma place_entity_ok {g g' : GameState} {eid : Nat} {col row : Int}
    (h : Map.place_entity g eid col row = .ok g') :
    ∃ e r c, g.entities[eid]? = some e ∧
      npIndex g.rows row = some r ∧ npIndex g.cols col = some c ∧
      g.cells r c = none ∧
      g' = { g with
        cells := setCell g.cells r c (some eid),
        entities := g.entities.set eid { e with occupied_tile := some (col, row) } } := by
  unfold Map.place_entity at h
  split at h
  · exact absurd h (by simp)
  next e hget =>
    split at h
    next r c hr hc =>
      split at h
      · exact absurd h (by simp)
      next hcell =>
        injection h with h'
        refine ⟨e, r, c, hget, hr, hc, ?_, h'.symm⟩
        cases hv : g.cells r c with
        | none => rfl
        | some v => rw [hv] at hcell; simp at hcell
    next hboth =>
      exact absurd h (by simp)

lemma call_false {w w' : WindowState} {eid : Nat} {dx dy : Int}
    (h : ActionMove.call w eid dx dy = .ok (w', false)) : w' = w := by
  unfold ActionMove.call at h
  split at h
  · exact absurd h (by simp)
  next e hget =>
    split at h
    · exact absurd h (by simp)
    next col row hocc =>
      dsimp only at h
      split at h
      next hcm =>
        split at h
        next r c hr hc =>
          split at h
          · exact absurd h (by simp)
          next g2 hplace =>
            injection h with h'
            injection h' with h1 h2
            exact absurd h2.symm (by simp)
        · exact absurd h (by simp)
      · injection h with h'
        injection h' with h1 h2
        exact h1.symm

lemma call_true {w w' : WindowState} {eid : Nat} {dx dy : Int}
    (h : ActionMove.call w eid dx dy = .ok (w', true)) :
    ∃ e col row,
      w.game.entities[eid]? = some e ∧
      e.occupied_tile = some (col, row) ∧
      Map.can_move_to w.game eid (col + dx) (row + dy) = true ∧
      ∃ r c, npIndex w.game.rows row = some r ∧ npIndex w.game.cols col = some c ∧
        w'.game = { w.game with
          cells := setCell (setCell w.game.cells r c none)
                     (row + dy).toNat (col + dx).toNat (some eid),
          entities := w.game.entities.set eid
                        { e with occupied_tile := some (col + dx, row + dy) } } ∧
        w'.player = w.player ∧ w'.npcs = w.npcs ∧
        w'.movement_repeat_key = w.movement_repeat_key ∧
        w'.width = w.width ∧ w'.height = w.height := by
  unfold ActionMove.call at h
  split at h
  · exact absurd h (by simp)
  next e hget =>
    split at h
    · exact absurd h (by simp)
    next col row hocc =>
      dsimp only at h
      split at h
      next hcm =>
        split at h
        next r c hr hc =>
          split at h
          · exact absurd h (by simp)
          next g2 hplace =>
            injection h with h'
            injection h' with h1 h2
            refine ⟨e, col, row, hget, hocc, hcm, r, c, hr, hc, ?_⟩
            obtain ⟨e2, r2, c2, hget2, hr2, hc2, hcell2, hg2⟩ := place_entity_ok hplace
            obtain ⟨hb0, hb1, hb2, hb3, -⟩ :=
              (can_move_to_iff w.game eid (col + dx) (row + dy)).mp hcm
            rw [show ({ w.game with
                  cells := setCell w.game.cells r c none } : GameState).entities
                  = w.game.entities from rfl] at hget2
            rw [hget] at hget2
            injection hget2 with he2
            subst he2
            rw [npIndex_of_lt hb2 hb3] at hr2
            rw [npIndex_of_lt hb0 hb1] at hc2
            injection hr2 with hr2'
            injection hc2 with hc2'
            subst hr2'
            subst hc2'
            subst h1
            refine ⟨?_, rfl, rfl, rfl, rfl, rfl⟩
            rw [show (GameWindow.move_view { w with game := g2 }
                  (col + dx, row + dy)).game = g2 from rfl]
            rw [hg2]
        · exact absurd h (by simp)
      · injection h with h'
        injection h' with h1 h2
        exact absurd h2.symm (by simp)

lemma place_entity_ok_of {g : GameState} {eid r c : Nat} {e : Entity} {col row : Int}
    (hget : g.entities[eid]? = some e)
    (hr : npIndex g.rows row = some r) (hc : npIndex g.cols col = some c)
    (hcell : g.cells r c = none) :
    Map.place_entity g eid col row = .ok { g with
      cells := setCell g.cells r c (some eid),
      entities := g.entities.set eid { e with occupied_tile := some (col, row) } } := by
  unfold Map.place_entity
  rw [hget, hr, hc]
  dsimp only
  rw [hcell]
  rfl

lemma call_succeeds {w : WindowState} {eid : Nat} {e : Entity} {col row : Int} (dx dy : Int)
    (hget : w.game.entities[eid]? = some e)
    (hocc : e.occupied_tile = some (col, row))
    (hs0 : 0 ≤ col) (hs1 : col < (w.game.cols : Int))
    (hs2 : 0 ≤ row) (hs3 : row < (w.game.rows : Int))
    (hcm : Map.can_move_to w.game eid (col + dx) (row + dy) = true) :
    ∃ w', ActionMove.call w eid dx dy = .ok (w', true) := by
  obtain ⟨ht0, ht1, ht2, ht3, htc⟩ := (can_move_to_iff w.game eid (col + dx) (row + dy)).mp hcm
  unfold ActionMove.call
  rw [hget]
  dsimp only
  rw [hocc]
  dsimp only
  rw [hcm]
  rw [if_pos rfl]
  rw [npIndex_of_lt hs2 hs3, npIndex_of_lt hs0 hs1]
  dsimp only
  have hget1 : ({ w.game with
      cells := setCell w.game.cells row.toNat col.toNat none } : GameState).entities[eid]?
      = some e := hget
  have hr1 : npIndex ({ w.game with
      cells := setCell w.game.cells row.toNat col.toNat none } : GameState).rows (row + dy)
      = some (row + dy).toNat := npIndex_of_lt ht2 ht3
  have hc1 : npIndex ({ w.game with
      cells := setCell w.game.cells row.toNat col.toNat none } : GameState).cols (col + dx)
      = some (col + dx).toNat := npIndex_of_lt ht0 ht1
  have hcell1 : ({ w.game with
      cells := setCell w.game.cells row.toNat col.toNat none } : GameState).cells
      (row + dy).toNat (col + dx).toNat = none := by
    by_cases hsame : (row + dy).toNat = row.toNat ∧ (col + dx).toNat = col.toNat
    · show setCell w.game.cells row.toNat col.toNat none (row + dy).toNat (col + dx).toNat = none
      rw [hsame.1, hsame.2, setCell_self]
    · show setCell w.game.cells row.toNat col.toNat none (row + dy).toNat (col + dx).toNat = none
      rw [setCell_ne _ _ hsame]
      exact htc
  rw [place_entity_ok_of hget1 hr1 hc1 hcell1]
  exact ⟨_, rfl⟩

lemma getElem?_map_action_set {l : List Entity} {eid : Nat} {e : Entity} (hget : l[eid]? = some e)
    (t : Option (Int × Int)) (i : Nat) :
    ((l.set eid { e with occupied_tile := t })[i]?).map (·.action)
      = (l[i]?).map (·.action) := by
  by_cases hi : eid = i
  · subst hi
    have hlt : eid < l.length := (List.getElem?_eq_some.mp hget).1
    rw [List.getElem?_set_eq_of_lt _ hlt, hget]
    rfl
  · rw [List.getElem?_set_ne hi]

lemma call_preserves_action {w w' : WindowState} {eid : Nat} {dx dy : Int} {b : Bool}
    (h : ActionMove.call w eid dx dy = .ok (w', b)) (i : Nat) :
    (w'.game.entities[i]?).map (·.action) = (w.game.entities[i]?).map (·.action) := by
  cases b
  · rw [call_false h]
  · obtain ⟨e, col, row, hget, hocc, hcm, r, c, hr, hc, hgame, -, -, -, -, -⟩ := call_true h
    rw [hgame]
    exact getElem?_map_action_set hget _ i

lemma runNpc_preserves_action : ∀ (npcs : List Nat) (w w' : WindowState),
    runNpcActions w npcs = .ok w' → ∀ i : Nat,
    (w'.game.entities[i]?).map (fun x => x.action)
      = (w.game.entities[i]?).map (fun x => x.action) := by
  intro npcs
  induction npcs with
  | nil =>
    intro w w' h i
    injection h with h'
    rw [h']
  | cons eid rest ih =>
    intro w w' h i
    unfold runNpcActions at h
    cases hget : w.game.entities[eid]? with
    | none =>
      rw [hget] at h
      exact absurd h (by simp)
    | some e =>
      rw [hget] at h
      dsimp only at h
      cases hact : e.action with
      | none =>
        rw [hact] at h
        exact ih w w' h i
      | some p =>
        obtain ⟨dx, dy⟩ := p
        rw [hact] at h
        dsimp only at h
        cases hcall : ActionMove.call w eid dx dy with
        | error err =>
          rw [hcall] at h
          exact absurd h (by simp)
        | ok q =>
          obtain ⟨w1, b⟩ := q
          rw [hcall] at h
          dsimp only at h
          rw [ih w1 w' h i]
          exact call_preserves_action hcall i

lemma update_preserves_action {w w' : WindowState}
    (h : GameWindow.update w = .ok w') (i : Nat) :
    (w'.game.entities[i]?).map (fun x => x.action)
      = (w.game.entities[i]?).map (fun x => x.action) := by
  unfold GameWindow.update at h
  split at h
  · exact absurd h (by simp)
  next p hget =>
    split at h
    · injection h with h'
      rw [h']
    next dx dy hact =>
      split at h
      · exact absurd h (by simp)
      next w1 b hcall =>
        split at h
        · rw [runNpc_preserves_action _ _ _ h i]
          exact call_preserves_action hcall i
        · injection h with h'
          rw [← h']
          exact call_preserves_action hcall i

lemma dualInv_place {g g' : GameState} {eid : Nat} {e : Entity} {col row : Int}
    (hInv : DualInv g)
    (hget : g.entities[eid]? = some e) (hfresh : e.occupied_tile = none)
    (hc0 : 0 ≤ col) (hc1 : col < (g.cols : Int))
    (hr0 : 0 ≤ row) (hr1 : row < (g.rows : Int))
    (hok : Map.place_entity g eid col row = .ok g') :
    DualInv g' := by
  obtain ⟨hInv1, hInv2⟩ := hInv
  obtain ⟨e2, r2, c2, hget2, hr2, hc2, hcell2, hg'⟩ := place_entity_ok hok
  rw [hget] at hget2
  injection hget2 with he2
  subst he2
  rw [npIndex_of_lt hr0 hr1] at hr2
  rw [npIndex_of_lt hc0 hc1] at hc2
  injection hr2 with hr2'
  injection hc2 with hc2'
  subst hr2'
  subst hc2'
  have hlt : eid < g.entities.length := (List.getElem?_eq_some.mp hget).1
  rw [hg']
  constructor
  · intro j ej hj colj rowj hoccj
    dsimp only at hj ⊢
    by_cases hji : j = eid
    · subst hji
      rw [List.getElem?_set_eq_of_lt _ hlt] at hj
      injection hj with hj'
      subst hj'
      dsimp only at hoccj
      injection hoccj with hp
      injection hp with hpc hpr
      subst hpc
      subst hpr
      exact ⟨hc0, hc1, hr0, hr1, setCell_self ..⟩
    · rw [List.getElem?_set_ne (fun hx => hji hx.symm)] at hj
      obtain ⟨hb0, hb1, hb2, hb3, hcellj⟩ := hInv1 j ej hj colj rowj hoccj
      refine ⟨hb0, hb1, hb2, hb3, ?_⟩
      have hne : ¬(rowj.toNat = row.toNat ∧ colj.toNat = col.toNat) := by
        rintro ⟨h1, h2⟩
        rw [h1, h2, hcell2] at hcellj
        exact absurd hcellj (by simp)
      rw [setCell_ne _ _ hne]
      exact hcellj
  · intro rr cc hrr hcc j hcellN
    dsimp only at hrr hcc hcellN ⊢
    by_cases hsame : rr = row.toNat ∧ cc = col.toNat
    · rw [hsame.1, hsame.2, setCell_self] at hcellN
      injection hcellN with hj
      subst hj
      refine ⟨{ e with occupied_tile := some (col, row) }, ?_, ?_⟩
      · rw [List.getElem?_set_eq_of_lt _ hlt]
      · dsimp only
        rw [hsame.1, hsame.2, Int.toNat_of_nonneg hc0, Int.toNat_of_nonneg hr0]
    · rw [setCell_ne _ _ hsame] at hcellN
      obtain ⟨ej, hgetj, hoccj⟩ := hInv2 rr cc hrr hcc j hcellN
      have hjne : j ≠ eid := by
        intro hje
        subst hje
        rw [hget] at hgetj
        injection hgetj with hjE
        subst hjE
        rw [hfresh] at hoccj
        exact absurd hoccj (by simp)
      refine ⟨ej, ?_, hoccj⟩
      rw [List.getElem?_set_ne (fun hx => hjne hx.symm)]
      exact hgetj

lemma dualInv_move {w w' : WindowState} {eid : Nat} {dx dy : Int} {b : Bool}
    (hInv : DualInv w.game)
    (h : ActionMove.call w eid dx dy = .ok (w', b)) :
    DualInv w'.game := by
  cases b
  · rw [call_false h]
    exact hInv
  · obtain ⟨e, col, row, hget, hocc, hcm, r, c, hr, hc, hgame, -, -, -, -, -⟩ := call_true h
    obtain ⟨hInv1, hInv2⟩ := hInv
    obtain ⟨hsc0, hsc1, hsr0, hsr1, hscell⟩ := hInv1 eid e hget col row hocc
    rw [npIndex_of_lt hsr0 hsr1] at hr
    rw [npIndex_of_lt hsc0 hsc1] at hc
    injection hr with hr'
    injection hc with hc'
    subst hr'
    subst hc'
    obtain ⟨ht0, ht1, ht2, ht3, htcell⟩ := (can_move_to_iff w.game eid (col + dx) (row + dy)).mp hcm
    have hlt : eid < w.game.entities.length := (List.getElem?_eq_some.mp hget).1
    rw [hgame]
    constructor
    · intro j ej hj colj rowj hoccj
      dsimp only at hj ⊢
      by_cases hji : j = eid
      · subst hji
        rw [List.getElem?_set_eq_of_lt _ hlt] at hj
        injection hj with hj'
        subst hj'
        dsimp only at hoccj
        injection hoccj with hp
        injection hp with hpc hpr
        subst hpc
        subst hpr
        exact ⟨ht0, ht1, ht2, ht3, setCell_self ..⟩
      · rw [List.getElem?_set_ne (fun hx => hji hx.symm)] at hj
        obtain ⟨hb0, hb1, hb2, hb3, hcellj⟩ := hInv1 j ej hj colj rowj hoccj
        refine ⟨hb0, hb1, hb2, hb3, ?_⟩
        have hneT : ¬(rowj.toNat = (row + dy).toNat ∧ colj.toNat = (col + dx).toNat) := by
          rintro ⟨h1, h2⟩
          rw [h1, h2, htcell] at hcellj
          exact absurd hcellj (by simp)
        have hneS : ¬(rowj.toNat = row.toNat ∧ colj.toNat = col.toNat) := by
          rintro ⟨h1, h2⟩
          rw [h1, h2, hscell] at hcellj
          injection hcellj with hje
          exact hji hje.symm
        rw [setCell_ne _ _ hneT, setCell_ne _ _ hneS]
        exact hcellj
    · intro rr cc hrr hcc j hcellN
      dsimp only at hrr hcc hcellN ⊢
      by_cases hsameT : rr = (row + dy).toNat ∧ cc = (col + dx).toNat
      · rw [hsameT.1, hsameT.2, setCell_self] at hcellN
        injection hcellN with hj
        subst hj
        refine ⟨{ e with occupied_tile := some (col + dx, row + dy) }, ?_, ?_⟩
        · rw [List.getElem?_set_eq_of_lt _ hlt]
        · dsimp only
          rw [hsameT.1, hsameT.2, Int.toNat_of_nonneg ht0, Int.toNat_of_nonneg ht2]
      · rw [setCell_ne _ _ hsameT] at hcellN
        by_cases hsameS : rr = row.toNat ∧ cc = col.toNat
        · rw [hsameS.1, hsameS.2, setCell_self] at hcellN
          exact absurd hcellN (by simp)
        · rw [setCell_ne _ _ hsameS] at hcellN
          obtain ⟨ej, hgetj, hoccj⟩ := hInv2 rr cc hrr hcc j hcellN
          have hjne : j ≠ eid := by
            intro hje
            subst hje
            rw [hget] at hgetj
            injection hgetj with hjE
            subst hjE
            rw [hocc] at hoccj
            injection hoccj with hp
            injection hp with hpc hpr
            apply hsameS
            constructor
            · omega
            · omega
          refine ⟨ej, ?_, hoccj⟩
          rw [List.getElem?_set_ne (fun hx => hjne hx.symm)]
          exact hgetj

lemma exceptMap_ok {α β γ : Type} {f : α → β} {x : Except γ α} {y : β}
    (h : x.map f = .ok y) : ∃ a, x = .ok a ∧ y = f a := by
  cases x with
  | error e => exact absurd h (by simp [Except.map])
  | ok a =>
    refine ⟨a, rfl, ?_⟩
    rw [show (Except.ok a : Except γ α).map f = .ok (f a) from rfl] at h
    injection h with h'
    rw [h']

lemma bounds_place {g g' : GameState} {eid : Nat} {col row : Int}
    (hB : EntitiesInBounds g)
    (hc0 : 0 ≤ col) (hc1 : col < (g.cols : Int))
    (hr0 : 0 ≤ row) (hr1 : row < (g.rows : Int))
    (hok : Map.place_entity g eid col row = .ok g') :
    EntitiesInBounds g' := by
  obtain ⟨e, r, c, hget, hr, hc, hcell, hg'⟩ := place_entity_ok hok
  rw [hg']
  intro j ej hj colj rowj hoccj
  dsimp only at hj ⊢
  by_cases hji : j = eid
  · subst hji
    have hlt : j < g.entities.length := (List.getElem?_eq_some.mp hget).1
    rw [List.getElem?_set_eq_of_lt _ hlt] at hj
    injection hj with hj'
    subst hj'
    dsimp only at hoccj
    injection hoccj with hp
    injection hp with hpc hpr
    subst hpc
    subst hpr
    exact ⟨hc0, hc1, hr0, hr1⟩
  · rw [List.getElem?_set_ne (fun hx => hji hx.symm)] at hj
    exact hB j ej hj colj rowj hoccj

lemma bounds_move {w w' : WindowState} {eid : Nat} {dx dy : Int} {b : Bool}
    (hB : EntitiesInBounds w.game)
    (h : ActionMove.call w eid dx dy = .ok (w', b)) :
    EntitiesInBounds w'.game := by
  cases b
  · rw [call_false h]
    exact hB
  · obtain ⟨e, col, row, hget, hocc, hcm, r, c, hr, hc, hgame, -, -, -, -, -⟩ := call_true h
    obtain ⟨ht0, ht1, ht2, ht3, -⟩ := (can_move_to_iff w.game eid (col + dx) (row + dy)).mp hcm
    have hlt : eid < w.game.entities.length := (List.getElem?_eq_some.mp hget).1
    rw [hgame]
    intro j ej hj colj rowj hoccj
    dsimp only at hj ⊢
    by_cases hji : j = eid
    · subst hji
      rw [List.getElem?_set_eq_of_lt _ hlt] at hj
      injection hj with hj'
      subst hj'
      dsimp only at hoccj
      injection hoccj with hp
      injection hp with hpc hpr
      subst hpc
      subst hpr
      exact ⟨ht0, ht1, ht2, ht3⟩
    · rw [List.getElem?_set_ne (fun hx => hji hx.symm)] at hj
      exact hB j ej hj colj rowj hoccj

lemma applyOp_dims {w w' : WindowState} {op : Op} (h : applyOp w op = .ok w') :
    w'.game.cols = w.game.cols ∧ w'.game.rows = w.game.rows := by
  cases op with
  | place eid col row =>
    obtain ⟨g', hok, hw'⟩ := exceptMap_ok h
    obtain ⟨e, r, c, -, -, -, -, hg'⟩ := place_entity_ok hok
    rw [hw', hg']
    exact ⟨rfl, rfl⟩
  | move eid dx dy =>
    obtain ⟨p, hok, hw'⟩ := exceptMap_ok h
    obtain ⟨w1, b⟩ := p
    cases b
    · rw [hw', call_false hok]
      exact ⟨rfl, rfl⟩
    · obtain ⟨e, col, row, -, -, -, r, c, -, -, hgame, -, -, -, -, -⟩ := call_true hok
      rw [hw']
      rw [show ((w1, true).1 : WindowState) = w1 from rfl, hgame]
      exact ⟨rfl, rfl⟩

lemma dualInv_runOps : ∀ (ops : List Op) (w : WindowState),
    DualInv w.game → opsWFB w ops = true → ∀ w' : WindowState,
    runOps w ops = some w' → DualInv w'.game := by
  intro ops
  induction ops with
  | nil =>
    intro w hInv _ w' hrun
    injection hrun with h'
    rw [← h']
    exact hInv
  | cons op rest ih =>
    intro w hInv hwf w' hrun
    unfold runOps at hrun
    cases happ : applyOp w op with
    | error err =>
      rw [happ] at hrun
      exact absurd hrun (by simp)
    | ok w1 =>
      rw [happ] at hrun
      dsimp only at hrun
      cases op with
      | place eid col row =>
        unfold opsWFB at hwf
        rw [happ] at hwf
        simp only [Bool.and_eq_true, decide_eq_true_eq] at hwf
        obtain ⟨⟨⟨⟨⟨hfresh, hc0⟩, hc1⟩, hr0⟩, hr1⟩, hrest⟩ := hwf
        unfold applyOp at happ
        obtain ⟨g', hok, hw1⟩ := exceptMap_ok happ
        cases hget : w.game.entities[eid]? with
        | none =>
          rw [hget] at hfresh
          exact absurd hfresh (by simp)
        | some e =>
          rw [hget] at hfresh
          dsimp only at hfresh
          rw [beq_iff_eq] at hfresh
          have hInv1 : DualInv w1.game := by
            rw [hw1]
            exact dualInv_place hInv hget hfresh hc0 hc1 hr0 hr1 hok
          exact ih w1 hInv1 hrest w' hrun
      | move eid dx dy =>
        unfold opsWFB at hwf
        rw [happ] at hwf
        dsimp only at hwf
        unfold applyOp at happ
        obtain ⟨p, hok, hw1⟩ := exceptMap_ok happ
        obtain ⟨w2, b⟩ := p
        have hInv1 : DualInv w1.game := by
          rw [hw1]
          exact dualInv_move hInv hok
        exact ih w1 hInv1 hwf w' hrun

lemma bounds_runOps : ∀ (ops : List Op) (w : WindowState),
    EntitiesInBounds w.game →
    placesInBoundsB w.game.cols w.game.rows ops = true →
    ∀ w' : WindowState, runOps w ops = some w' → EntitiesInBounds w'.game := by
  intro ops
  induction ops with
  | nil =>
    intro w hB _ w' hrun
    injection hrun with h'
    rw [← h']
    exact hB
  | cons op rest ih =>
    intro w hB hwf w' hrun
    unfold runOps at hrun
    cases happ : applyOp w op with
    | error err =>
      rw [happ] at hrun
      exact absurd hrun (by simp)
    | ok w1 =>
      rw [happ] at hrun
      dsimp only at hrun
      have hdims := applyOp_dims happ
      cases op with
      | place eid col row =>
        unfold placesInBoundsB at hwf
        simp only [Bool.and_eq_true, decide_eq_true_eq] at hwf
        obtain ⟨⟨⟨⟨hc0, hc1⟩, hr0⟩, hr1⟩, hrest⟩ := hwf
        unfold applyOp at happ
        obtain ⟨g', hok, hw1⟩ := exceptMap_ok happ
        have hB1 : EntitiesInBounds w1.game := by
          rw [hw1]
          exact bounds_place hB hc0 hc1 hr0 hr1 hok
        apply ih w1 hB1 _ w' hrun
        rw [hdims.1, hdims.2]
        exact hrest
      | move eid dx dy =>
        unfold placesInBoundsB at hwf
        unfold applyOp at happ
        obtain ⟨p, hok, hw1⟩ := exceptMap_ok happ
        obtain ⟨w2, b⟩ := p
        have hB1 : EntitiesInBounds w1.game := by
          rw [hw1]
          exact bounds_move hB hok
        apply ih w1 hB1 _ w' hrun
        rw [hdims.1, hdims.2]
        exact hwf

lemma dualInv_init (cols rows n width height : Nat) :
    DualInv (initW cols rows n width height).game := by
  constructor
  · intro eid e hget col row hocc
    have hrep : ((initW cols rows n width height).game.entities)[eid]?
        = (List.replicate n { name := "npc", occupied_tile := none, action := none } : List Entity)[eid]? := rfl
    rw [hrep, List.getElem?_replicate] at hget
    split at hget
    · injection hget with he
      rw [← he] at hocc
      exact absurd hocc (by simp)
    · exact absurd hget (by simp)
  · intro r c _ _ eid hcell
    have : (initW cols rows n width height).game.cells r c = none := rfl
    rw [this] at hcell
    exact absurd hcell (by simp)

lemma bounds_init (cols rows n width height : Nat) :
    EntitiesInBounds (initW cols rows n width height).game := by
  intro eid e hget col row hocc
  have hrep : ((initW cols rows n width height).game.entities)[eid]?
      = (List.replicate n { name := "npc", occupied_tile := none, action := none } : List Entity)[eid]? := rfl
  rw [hrep, List.getElem?_replicate] at hget
  split at hget
  · injection hget with he
    rw [← he] at hocc
    exact absurd hocc (by simp)
  · exact absurd hget (by simp)

lemma can_move_to_false {g : GameState} {ent : Nat} {col row : Int}
    (h : (g.cols : Int) ≤ col ∨ (g.rows : Int) ≤ row ∨ col < 0 ∨ row < 0 ∨
      (g.cells row.toNat col.toNat).isSome = true) :
    Map.can_move_to g ent col row = false := by
  cases hcm : Map.can_move_to g ent col row
  · rfl
  · obtain ⟨h0, h1, h2, h3, h4⟩ := (can_move_to_iff g ent col row).mp hcm
    rcases h with h | h | h | h | h
    · omega
    · omega
    · omega
    · omega
    · rw [h4] at h
      exact absurd h (by simp)

lemma call_blocked {w : WindowState} {eid : Nat} {e : Entity} {col row : Int} (dx dy : Int)
    (hget : w.game.entities[eid]? = some e)
    (hocc : e.occupied_tile = some (col, row))
    (hcmf : Map.can_move_to w.game eid (col + dx) (row + dy) = false) :
    ActionMove.call w eid dx dy = .ok (w, false) := by
  unfold ActionMove.call
  rw [hget]
  dsimp only
  rw [hocc]
  dsimp only
  rw [hcmf]
  rw [if_neg (by simp)]

lemma call_true_occ {w w' : WindowState} {eid : Nat} {dx dy : Int} {e : Entity} {col row : Int}
    (h : ActionMove.call w eid dx dy = .ok (w', true))
    (hget : w.game.entities[eid]? = some e)
    (hocc : e.occupied_tile = some (col, row)) :
    w'.game.entities[eid]? = some { e with occupied_tile := some (col + dx, row + dy) } := by
  obtain ⟨e1, col1, row1, hget1, hocc1, -, r, c, -, -, hgame, -, -, -, -, -⟩ := call_true h
  rw [hget] at hget1
  injection hget1 with he
  subst he
  rw [hocc] at hocc1
  injection hocc1 with hp
  injection hp with hpc hpr
  subst hpc
  subst hpr
  have hlt : eid < w.game.entities.length := (List.getElem?_eq_some.mp hget).1
  rw [hgame]
  dsimp only
  rw [List.getElem?_set_eq_of_lt _ hlt]

/-- C1, counterexample: the dual-pointer invariant is not preserved by every
sequence of place and move operations. The sequence [[c1cexOps]] calls
`Map.place_entity` a second time for an already-placed entity; the call
succeeds (the target cell (1,0) is empty, so the assert passes) and leaves
grid cell (0,0) still holding entity 0 while the entity's `occupied_tile`
is (1,0): the two sides of the occupancy link disagree in a reachable
state. -/
theorem c1_counterexample :
    runOps c1cexW c1cexOps = some c1cexRes ∧ ¬ DualInv c1cexRes.game := by
  constructor
  · rfl
  · intro h
    obtain ⟨e, he, hocc⟩ := h.2 0 0 (by decide) (by decide) 0 rfl
    rw [show c1cexRes.game.entities[0]?
          = some { name := "npc", occupied_tile := some (1, 0), action := none } from rfl] at he
    injection he with he'
    subst he'
    exact absurd hocc (by decide)

/-- C1, amended: for every state reachable from a fresh grid by a sequence of
place and move operations in which every `place_entity` call targets
in-bounds coordinates and an entity that is not currently placed (moves are
unrestricted), the dual-pointer occupancy invariant holds: a grid cell's
entity field refers to entity e if and only if e's `occupied_tile` equals
that cell's coordinates. -/
theorem c1_dual_pointer_invariant (cols rows n width height : Nat) (ops : List Op)
    (hwf : opsWFB (initW cols rows n width height) ops = true)
    (w' : WindowState) (hrun : runOps (initW cols rows n width height) ops = some w') :
    DualInv w'.game :=
  dualInv_runOps ops (initW cols rows n width height)
    (dualInv_init cols rows n width height) hwf w' hrun

/-- Witness for C1: a concrete well-formed run of two placements and two moves whose final state satisfies the invariant. -/
theorem c1_dual_pointer_invariant_witness :
    opsWFB (initW 3 3 2 960 540) c1wopsW = true ∧
    DualInv ((runOps (initW 3 3 2 960 540) c1wopsW).getD wDefault).game :=
  ⟨by decide, c1_dual_pointer_invariant 3 3 2 960 540 c1wopsW (by decide) _ rfl⟩

/-- C2: if the target cell of a move is outside the grid bounds or already
holds an occupant, `ActionMove.__call__` returns False and the state is
returned completely unchanged (the very same state value: the moving
entity's `occupied_tile`, the other entities, and every grid cell are
untouched); moreover, in any state satisfying the dual-pointer invariant,
two distinct entities never occupy the same tile. -/
theorem c2_blocked_move_atomic (w : WindowState) (eid : Nat) (e : Entity) (dx dy col row : Int)
    (hget : w.game.entities[eid]? = some e)
    (hocc : e.occupied_tile = some (col, row))
    (hblocked : (w.game.cols : Int) ≤ col + dx ∨ (w.game.rows : Int) ≤ row + dy ∨
      col + dx < 0 ∨ row + dy < 0 ∨
      (w.game.cells (row + dy).toNat (col + dx).toNat).isSome = true) :
    ActionMove.call w eid dx dy = .ok (w, false) ∧
    (DualInv w.game → ∀ (i j : Nat) (ei ej : Entity) (p : Int × Int), i ≠ j →
      w.game.entities[i]? = some ei → w.game.entities[j]? = some ej →
      ei.occupied_tile = some p → ej.occupied_tile ≠ some p) := by
  constructor
  · exact call_blocked dx dy hget hocc (can_move_to_false hblocked)
  · intro hInv i j ei ej p hne hgi hgj hocci hoccj
    obtain ⟨pc, pr⟩ := p
    obtain ⟨-, -, -, -, hci⟩ := hInv.1 i ei hgi pc pr hocci
    obtain ⟨-, -, -, -, hcj⟩ := hInv.1 j ej hgj pc pr hoccj
    rw [hci] at hcj
    injection hcj with hij
    exact hne hij

/-- Witness for C2: the spec scenario, A at (3,3) moving RIGHT into B at (4,3); the move fails and the state is unchanged. -/
theorem c2_blocked_move_atomic_witness :
    (c2w.game.cells 3 4).isSome = true ∧
    ActionMove.call c2w 0 1 0 = .ok (c2w, false) :=
  ⟨by decide,
   (c2_blocked_move_atomic c2w 0 { name := "npc", occupied_tile := some (3, 3), action := none }
     1 0 3 3 rfl rfl (Or.inr (Or.inr (Or.inr (Or.inr (by decide)))))).1⟩

/-- C3, counterexample: the player at the grid edge (0,5) with a pending LEFT
move; resolution fails (`can_move_to` rejects column -1), yet after the
tick the pending action is still stored unchanged: `GameWindow.update`
never clears any `action` field, so the failed move IS retried on the next
tick without any fresh input event. -/
theorem c3_counterexample :
    Map.can_move_to c3cexW.game 0 (-1) 5 = false ∧
    ((GameWindow.update c3cexW).toOption.map fun v =>
        ((v.game.entities[0]?).map (fun x => x.action),
         (v.game.entities[0]?).map (fun x => x.occupied_tile)))
      = some (some (some (-1, 0)), some (some (0, 5))) := by
  decide

/-- C3, amended: resolution never clears a pending move. One tick of
`GameWindow.update` leaves every entity's `action` field exactly as it
was (whether the resolution failed or succeeded); the player's pending
move is cleared only by `GameWindow.on_key_release` with the symbol
recorded in `movement_repeat_key`. -/
theorem c3_pending_move_retention (w w' : WindowState)
    (h : GameWindow.update w = .ok w') :
    (∀ i : Nat, (w'.game.entities[i]?).map (fun x => x.action)
        = (w.game.entities[i]?).map (fun x => x.action)) ∧
    (∀ (sym : Nat) (p : Entity), w.game.entities[w.player]? = some p →
      p.action.isSome = true → w.movement_repeat_key = some sym →
      ((GameWindow.on_key_release w sym).game.entities[w.player]?).map (fun x => x.action)
        = some none) := by
  constructor
  · exact update_preserves_action h
  · intro sym p hp hsome hkey
    unfold GameWindow.on_key_release
    rw [hp]
    dsimp only
    rw [if_pos ⟨hsome, hkey⟩]
    dsimp only
    have hlt : w.player < w.game.entities.length := (List.getElem?_eq_some.mp hp).1
    rw [List.getElem?_set_eq_of_lt _ hlt]
    rfl

/-- Witness for C3 (amended): in the edge scenario the player action survives the tick unchanged. -/
theorem c3_pending_move_retention_witness :
    (c3amRes.game.entities[0]?).map (fun x => x.action)
      = (c3cexW.game.entities[0]?).map (fun x => x.action) :=
  (c3_pending_move_retention c3cexW c3amRes rfl).1 0

/-- C4, counterexample: an npc has a pending move whose target cell is free,
but the player has no pending action, so `GameWindow.update` returns
immediately: the npc's move is not resolved in that tick (its position and
its pending action are unchanged), contradicting the claim that every
entity with a pending move is resolved regardless of the player. -/
theorem c4_counterexample :
    Map.can_move_to c4cexW.game 1 3 2 = true ∧
    ((GameWindow.update c4cexW).toOption.map fun v =>
        ((v.game.entities[1]?).map (fun x => x.occupied_tile),
         (v.game.entities[1]?).map (fun x => x.action)))
      = some (some (some (2, 2)), some (some (1, 0))) := by
  decide

/-- C4, amended: `GameWindow.update` resolves the player's pending move when
one exists; non-player entities' pending moves are resolved (each once,
in list order, by the npc loop) only in a tick in which the player's move
resolves successfully. When the player has no pending action, or when the
player's move fails, update returns with the state unchanged and no npc
move is resolved. -/
theorem c4_update_gating (w : WindowState) (p : Entity)
    (hget : w.game.entities[w.player]? = some p) :
    (p.action = none → GameWindow.update w = .ok w) ∧
    (∀ (dx dy : Int) (w1 : WindowState), p.action = some (dx, dy) →
      ActionMove.call w w.player dx dy = .ok (w1, false) →
      w1 = w ∧ GameWindow.update w = .ok w1) ∧
    (∀ (dx dy : Int) (w1 : WindowState), p.action = some (dx, dy) →
      ActionMove.call w w.player dx dy = .ok (w1, true) →
      GameWindow.update w = runNpcActions w1 w1.npcs) := by
  refine ⟨?_, ?_, ?_⟩
  · intro hact
    unfold GameWindow.update
    rw [hget]
    dsimp only
    rw [hact]
  · intro dx dy w1 hact hcall
    refine ⟨call_false hcall, ?_⟩
    unfold GameWindow.update
    rw [hget]
    dsimp only
    rw [hact]
    dsimp only
    rw [hcall]
    dsimp only
    rw [if_neg (by simp)]
  · intro dx dy w1 hact hcall
    unfold GameWindow.update
    rw [hget]
    dsimp only
    rw [hact]
    dsimp only
    rw [hcall]
    dsimp only
    rw [if_pos rfl]

/-- Witness for C4 (amended): with an idle player the tick is a no-op. -/
theorem c4_update_gating_witness :
    GameWindow.update c4cexW = .ok c4cexW :=
  (c4_update_gating c4cexW { name := "player", occupied_tile := some (0, 0), action := none }
    rfl).1 rfl

/-- C5, counterexample: `Map.place_entity` onto the occupied cell (1,1)
raises AssertionError (an uncaught exception, not a CellOccupied failure
value), and placing at the out-of-bounds column -1 does not fail at all:
numpy index wrap-around stores the entity in cell (2,0) while
`occupied_tile` records (-1,0), so no OutOfBounds failure value exists. -/
theorem c5_counterexample :
    Map.place_entity c5g 1 1 1 = .error .assertionError ∧
    ((Map.place_entity c5g 1 (-1) 0).toOption.map fun g =>
        ((g.entities[1]?).map (fun x => x.occupied_tile), g.cells 0 2))
      = some (some (some (-1, 0)), some 1) :=
  ⟨rfl, by decide⟩

/-- C5, amended: `Map.place_entity` has no bounds check of its own. A target
cell that resolves in-range and is occupied raises AssertionError; a
coordinate that numpy cannot resolve (at or beyond the dimension, or below
its negation) raises IndexError; both abort the call before either side
of the occupancy link is written (the returned value carries no updated
state). A resolvable coordinate pair with an empty cell succeeds, writing
the wrapped cell and recording the raw coordinates in `occupied_tile`. -/
theorem c5_placement_errors (g : GameState) (eid : Nat) (e : Entity) (col row : Int)
    (hget : g.entities[eid]? = some e) :
    (∀ r c : Nat, npIndex g.rows row = some r → npIndex g.cols col = some c →
      (g.cells r c).isSome = true →
      Map.place_entity g eid col row = .error .assertionError) ∧
    ((npIndex g.rows row = none ∨ npIndex g.cols col = none) →
      Map.place_entity g eid col row = .error .indexError) ∧
    (∀ r c : Nat, npIndex g.rows row = some r → npIndex g.cols col = some c →
      g.cells r c = none →
      Map.place_entity g eid col row = .ok { g with
        cells := setCell g.cells r c (some eid),
        entities := g.entities.set eid { e with occupied_tile := some (col, row) } }) := by
  refine ⟨?_, ?_, ?_⟩
  · intro r c hr hc hocc
    unfold Map.place_entity
    rw [hget, hr, hc]
    dsimp only
    rw [hocc]
    rw [if_pos rfl]
  · intro hdisj
    unfold Map.place_entity
    rw [hget]
    rcases hdisj with h1 | h2
    · rw [h1]
    · cases hrows : npIndex g.rows row with
      | none => rfl
      | some r => rw [h2]
  · intro r c hr hc hcell
    exact place_entity_ok_of hget hr hc hcell

/-- Witness for C5 (amended): placing entity 1 at column 3 of the 3x3 grid raises IndexError. -/
theorem c5_placement_errors_witness :
    c5g.entities[1]? = some { name := "npc", occupied_tile := none, action := none } ∧
    Map.place_entity c5g 1 3 0 = .error .indexError :=
  ⟨by decide,
   (c5_placement_errors c5g 1 { name := "npc", occupied_tile := none, action := none }
     3 0 rfl).2.1 (Or.inr (by decide))⟩

/-- C6, counterexample: placing an entity at column -1 succeeds via numpy
wrap-around and records `occupied_tile = (-1, 0)`, which violates
`0 <= col`: a sequence of placements can leave an entity whose recorded
position is outside [0,cols) x [0,rows). -/
theorem c6_counterexample :
    runOps c6cexW c6cexOps = some c6cexRes ∧
    (c6cexRes.game.entities[0]?).map (fun x => x.occupied_tile) = some (some (-1, 0)) ∧
    ¬ EntitiesInBounds c6cexRes.game := by
  refine ⟨rfl, by decide, ?_⟩
  intro h
  exact absurd (h 0 { name := "npc", occupied_tile := some (-1, 0), action := none }
    rfl (-1) 0 rfl).1 (by decide)

/-- C6, amended: after any sequence of placements with in-bounds coordinates
and arbitrary resolved moves, every entity's `occupied_tile` satisfies
`0 <= col < cols` and `0 <= row < rows`: moves can never push a recorded
position out of the grid because `can_move_to` bounds-checks every
target. -/
theorem c6_bounds_invariant (cols rows n width height : Nat) (ops : List Op)
    (hpl : placesInBoundsB cols rows ops = true)
    (w' : WindowState) (hrun : runOps (initW cols rows n width height) ops = some w') :
    EntitiesInBounds w'.game :=
  bounds_runOps ops (initW cols rows n width height)
    (bounds_init cols rows n width height) hpl w' hrun

/-- Witness for C6 (amended): a concrete in-bounds run whose final positions are all in bounds. -/
theorem c6_bounds_invariant_witness :
    placesInBoundsB 3 3 c6wopsW = true ∧
    EntitiesInBounds ((runOps (initW 3 3 1 960 540) c6wopsW).getD wDefault).game :=
  ⟨by decide, c6_bounds_invariant 3 3 1 960 540 c6wopsW (by decide) _ rfl⟩

/-- C7: moving in a direction D from the table and then immediately in the
direction with the negated delta, with both moves succeeding, returns the
entity to its original `occupied_tile`. -/
theorem c7_round_trip (w w1 w2 : WindowState) (eid : Nat) (e : Entity) (d : Directions)
    (col row : Int)
    (hget : w.game.entities[eid]? = some e)
    (hocc : e.occupied_tile = some (col, row))
    (h1 : ActionMove.call w eid d.value.1 d.value.2 = .ok (w1, true))
    (h2 : ActionMove.call w1 eid (-d.value.1) (-d.value.2) = .ok (w2, true)) :
    (w2.game.entities[eid]?).map (fun x => x.occupied_tile) = some (some (col, row)) := by
  have k1 := call_true_occ h1 hget hocc
  have k2 := call_true_occ h2 k1 rfl
  rw [k2]
  dsimp only [Option.map]
  have hc : col + d.value.1 + -d.value.1 = col := by ring
  have hr : row + d.value.2 + -d.value.2 = row := by ring
  rw [hc, hr]

/-- Witness for C7: RIGHT then LEFT from (1,1) on an empty 3x3 grid returns the entity to (1,1). -/
theorem c7_round_trip_witness :
    (c7w2.game.entities[0]?).map (fun x => x.occupied_tile) = some (some (1, 1)) :=
  c7_round_trip c7w c7w1 c7w2 0 { name := "npc", occupied_tile := some (1, 1), action := none }
    Directions.RIGHT 1 1 rfl rfl rfl rfl

/-- C8: the direction table has exactly eight entries with pairwise distinct
deltas, each a unit vector with components in {-1,0,1} and none equal to
(0,0); RIGHT has delta (1,0), and on a 10x10 grid with the player at
(5,5) and (6,5) free, resolving a RIGHT move places the player at (6,5)
and reports success. -/
theorem c8_direction_table :
    Directions.all.length = 8 ∧
    (Directions.all.map Directions.value).Nodup ∧
    (Directions.all.all fun d =>
      (d.value.1 == -1 || d.value.1 == 0 || d.value.1 == 1) &&
      (d.value.2 == -1 || d.value.2 == 0 || d.value.2 == 1) &&
      !(d.value == (0, 0))) = true ∧
    Directions.RIGHT.value = (1, 0) ∧
    ((ActionMove.call c8w 0 Directions.RIGHT.value.1 Directions.RIGHT.value.2).toOption.map
      fun p => ((p.1.game.entities[0]?).map (fun x => x.occupied_tile), p.2))
      = some (some (some (6, 5)), true) := by
  decide

/-- C9 (spec-modelled): for every window dimension of at least one pixel and
a positive tile size, the visible tile count ceil(window/tile) forced up
to the next odd integer is odd and at least 1, and the clamped viewport
window always contains an in-grid focus cell. -/
theorem c9_viewport (window_dim tile_dim : Nat)
    (hw : 1 ≤ window_dim) (ht : 1 ≤ tile_dim)
    (cells : Nat) (focus : Int) (hf0 : 0 ≤ focus) (hf1 : focus < (cells : Int)) :
    visible_tiles window_dim tile_dim % 2 = 1 ∧
    1 ≤ visible_tiles window_dim tile_dim ∧
    (viewportRange cells focus (visible_tiles window_dim tile_dim)).1 ≤ focus ∧
    focus ≤ (viewportRange cells focus (visible_tiles window_dim tile_dim)).2 := by
  have hv1 : 1 ≤ (window_dim + tile_dim - 1) / tile_dim := by
    rw [Nat.le_div_iff_mul_le (by omega)]
    omega
  have hodd : visible_tiles window_dim tile_dim % 2 = 1 := by
    unfold visible_tiles
    dsimp only
    split
    · omega
    · omega
  refine ⟨hodd, ?_, ?_, ?_⟩
  · unfold visible_tiles
    dsimp only
    split
    · omega
    · omega
  · unfold viewportRange
    dsimp only
    have h0 : (0 : Int) ≤ ((visible_tiles window_dim tile_dim / 2 : Nat) : Int) := by omega
    exact max_le hf0 (by omega)
  · unfold viewportRange
    dsimp only
    refine le_min (by omega) (by omega)

/-- Witness for C9: a 1-pixel window over 20-pixel tiles with the focus at 5 on a 10-cell axis. -/
theorem c9_viewport_witness :
    1 ≤ 1 ∧ 1 ≤ 20 ∧ (0 : Int) ≤ 5 ∧ (5 : Int) < (10 : Nat) ∧
    (visible_tiles 1 20 % 2 = 1 ∧ 1 ≤ visible_tiles 1 20 ∧
      (viewportRange 10 5 (visible_tiles 1 20)).1 ≤ 5 ∧
      (5 : Int) ≤ (viewportRange 10 5 (visible_tiles 1 20)).2) :=
  ⟨by decide, by decide, by decide, by decide,
   c9_viewport 1 20 (by decide) (by decide) 10 5 (by decide) (by decide)⟩

/-- C10: movement validation never consults a tile's walkable or transparent
fields: in any state, whatever those flags hold, a move whose in-bounds
source entity targets an in-bounds cell with no occupant passes
`can_move_to` and resolves successfully. -/
theorem c10_walkable_ignored (w : WindowState) (eid : Nat) (e : Entity) (col row dx dy : Int)
    (hget : w.game.entities[eid]? = some e)
    (hocc : e.occupied_tile = some (col, row))
    (hs0 : 0 ≤ col) (hs1 : col < (w.game.cols : Int))
    (hs2 : 0 ≤ row) (hs3 : row < (w.game.rows : Int))
    (ht0 : 0 ≤ col + dx) (ht1 : col + dx < (w.game.cols : Int))
    (ht2 : 0 ≤ row + dy) (ht3 : row + dy < (w.game.rows : Int))
    (hempty : w.game.cells (row + dy).toNat (col + dx).toNat = none) :
    Map.can_move_to w.game eid (col + dx) (row + dy) = true ∧
    ∃ w', ActionMove.call w eid dx dy = .ok (w', true) := by
  have hcm : Map.can_move_to w.game eid (col + dx) (row + dy) = true :=
    (can_move_to_iff w.game eid (col + dx) (row + dy)).mpr ⟨ht0, ht1, ht2, ht3, hempty⟩
  exact ⟨hcm, call_succeeds dx dy hget hocc hs0 hs1 hs2 hs3 hcm⟩

/-- Witness for C10: with walkable = False everywhere the move from (0,0) to (1,0) still succeeds. -/
theorem c10_walkable_ignored_witness :
    c10w.game.walkable 0 1 = false ∧
    (Map.can_move_to c10w.game 0 1 0 = true ∧
      ∃ w', ActionMove.call c10w 0 1 0 = .ok (w', true)) :=
  ⟨rfl,
   c10_walkable_ignored c10w 0 { name := "npc", occupied_tile := some (0, 0), action := none }
     0 0 1 0 rfl rfl (by decide) (by decide) (by decide) (by decide) (by decide) (by decide)
     (by decide) (by decide) rfl⟩
